import Mathlib

/-!
Shallow embedding of `src/main.rs` of the feeds-and-speeds calculator.

The Rust code works on `f64`.  The numeric model here is ℚ: every constant
in the program (the catalog tables, `f64::consts::PI`, the state defaults)
is an exactly representable binary64 value, and every claim under scrutiny
is either an exact structural fact about which arithmetic expression is
produced, or an approximation with a tolerance vastly wider than binary64
rounding error, so rational semantics is faithful for them.  `PI` below is
the exact rational value of `f64::consts::PI` (884279719003555 / 2^48).

For the totality claim over the full `f64` domain (NaN, infinities) a second
embedding `feed_per_flute_float` over the type `F` (ℚ extended with NaN and
the two infinities, with IEEE-754 comparison and arithmetic behaviour on
those specials) mirrors the same source function.
-/

/-- Embeds Rust's `std::ops::Range<f64>` (a start/end pair; `..` literals). -/
structure Range (α : Type) where
  start : α
  «end» : α
deriving DecidableEq

/-- The `Material` enum (src/main.rs lines 16-24). -/
inductive Material where
  | Aluminium
  | Plastic
  | Copper
  | WoodSoft
  | WoodHard
  | WoodMdf
deriving DecidableEq

/-- `Material::cut_speed` (src/main.rs lines 27-36), m/min. -/
def Material.cut_speed : Material → Range ℚ
  | .Aluminium => ⟨100, 450⟩
  | .Plastic => ⟨200, 400⟩
  | .Copper => ⟨80, 200⟩
  | .WoodSoft => ⟨300, 600⟩
  | .WoodHard => ⟨200, 450⟩
  | .WoodMdf => ⟨200, 450⟩

/-- `Material::feed_table` (src/main.rs lines 37-82): per material, the list
of `(diameter_mm, feed_per_tooth_range)` entries, in source order. -/
def Material.feed_table : Material → List (ℚ × Range ℚ)
  | .Aluminium =>
      [(4, ⟨0.005, 0.015⟩), (6, ⟨0.015, 0.025⟩), (8, ⟨0.02, 0.03⟩),
       (10, ⟨0.025, 0.038⟩), (12, ⟨0.03, 0.05⟩)]
  | .Plastic =>
      [(4, ⟨0.02, 0.05⟩), (6, ⟨0.04, 0.09⟩), (8, ⟨0.04, 0.1⟩),
       (10, ⟨0.05, 0.15⟩), (12, ⟨0.08, 0.18⟩)]
  | .Copper =>
      [(4, ⟨0.01, 0.02⟩), (6, ⟨0.015, 0.025⟩), (8, ⟨0.03, 0.057⟩),
       (10, ⟨0.035, 0.065⟩), (12, ⟨0.04, 0.08⟩)]
  | .WoodSoft =>
      [(4, ⟨0.02, 0.04⟩), (6, ⟨0.025, 0.055⟩), (8, ⟨0.037, 0.07⟩),
       (10, ⟨0.045, 0.085⟩), (12, ⟨0.05, 0.095⟩)]
  | .WoodHard =>
      [(4, ⟨0.015, 0.035⟩), (6, ⟨0.02, 0.05⟩), (8, ⟨0.03, 0.065⟩),
       (10, ⟨0.045, 0.08⟩), (12, ⟨0.05, 0.09⟩)]
  | .WoodMdf =>
      [(4, ⟨0.022, 0.044⟩), (6, ⟨0.0275, 0.0605⟩), (8, ⟨0.0407, 0.077⟩),
       (10, ⟨0.0495, 0.0935⟩), (12, ⟨0.055, 0.105⟩)]

/-- The `for entry in iter` loop of `feed_per_flute` (src/main.rs lines
92-107), carrying the running `last_entry`.  Exhausting the iterator returns
`last_entry.1.clone()` (line 107). -/
def fpf_go (diameter : ℚ) : ℚ × Range ℚ → List (ℚ × Range ℚ) → Range ℚ
  | last_entry, [] => last_entry.2
  | last_entry, entry :: rest =>
    if entry.1 = diameter then
      entry.2
    else if entry.1 > diameter then
      let left_weight := (entry.1 - last_entry.1) / (diameter - last_entry.1)
      let right_weight := 1 - left_weight
      ⟨last_entry.2.start * left_weight + entry.2.start * right_weight,
       last_entry.2.«end» * left_weight + entry.2.«end» * right_weight⟩
    else fpf_go diameter entry rest

/-- `feed_per_flute` (src/main.rs lines 85-108).  The
`.expect("material has empty feed table")` panic on an empty table is
embedded as `none`; otherwise the early `last_entry.0 >= diameter` return
(lines 89-91) and the scan loop are mirrored. -/
def feed_per_flute (material : Material) (diameter : ℚ) : Option (Range ℚ) :=
  match material.feed_table with
  | [] => none
  | first :: rest =>
    some (if first.1 ≥ diameter then first.2 else fpf_go diameter first rest)

/-- A binary64 value as seen by `feed_per_flute`: a finite value (modelled by
its exact rational), NaN, or one of the two infinities.  (The sign of zero is
not tracked: `-0.0` and `0.0` compare equal and behave identically in every
operation this program performs on a produced value.) -/
inductive F where
  | nan
  | ninf
  | fin (q : ℚ)
  | inf
deriving DecidableEq

/-- IEEE-754 `q >= d` for finite `q` (NaN compares false; `q >= -inf` true). -/
def F.geq (q : ℚ) : F → Bool
  | .nan => false
  | .inf => false
  | .ninf => true
  | .fin x => decide (x ≤ q)

/-- IEEE-754 `q == d` for finite `q` (NaN is equal to nothing). -/
def F.eqq (q : ℚ) : F → Bool
  | .fin x => decide (q = x)
  | _ => false

/-- IEEE-754 `q > d` for finite `q`. -/
def F.gtq (q : ℚ) : F → Bool
  | .nan => false
  | .inf => false
  | .ninf => true
  | .fin x => decide (x < q)

/-- IEEE-754 `d - q` for finite `q`. -/
def F.sub_fin : F → ℚ → F
  | .nan, _ => .nan
  | .inf, _ => .inf
  | .ninf, _ => .ninf
  | .fin x, q => .fin (x - q)

/-- IEEE-754 `q / d` for finite `q`. -/
def F.div_fin (q : ℚ) : F → F
  | .nan => .nan
  | .inf => .fin 0
  | .ninf => .fin 0
  | .fin x =>
    if x = 0 then (if q = 0 then .nan else if 0 < q then .inf else .ninf)
    else .fin (q / x)

/-- IEEE-754 `1 - w`. -/
def F.one_sub : F → F
  | .nan => .nan
  | .inf => .ninf
  | .ninf => .inf
  | .fin x => .fin (1 - x)

/-- IEEE-754 `q * w` for finite `q`. -/
def F.mul_fin (q : ℚ) : F → F
  | .nan => .nan
  | .inf => if q = 0 then .nan else if 0 < q then .inf else .ninf
  | .ninf => if q = 0 then .nan else if 0 < q then .ninf else .inf
  | .fin x => .fin (q * x)

/-- IEEE-754 addition. -/
def F.add : F → F → F
  | .nan, _ => .nan
  | _, .nan => .nan
  | .inf, .ninf => .nan
  | .ninf, .inf => .nan
  | .inf, _ => .inf
  | .ninf, _ => .ninf
  | .fin _, .inf => .inf
  | .fin _, .ninf => .ninf
  | .fin x, .fin y => .fin (x + y)

/-- The loop of `feed_per_flute` (src/main.rs lines 92-107) over the full
binary64 diameter domain: same control flow as `fpf_go`, with the IEEE
comparison and arithmetic behaviour of `F`. -/
def fpf_go_float (diameter : F) : ℚ × Range ℚ → List (ℚ × Range ℚ) → Range F
  | last_entry, [] => ⟨.fin last_entry.2.start, .fin last_entry.2.«end»⟩
  | last_entry, entry :: rest =>
    if F.eqq entry.1 diameter then
      ⟨.fin entry.2.start, .fin entry.2.«end»⟩
    else if F.gtq entry.1 diameter then
      let left_weight := F.div_fin (entry.1 - last_entry.1) (F.sub_fin diameter last_entry.1)
      let right_weight := F.one_sub left_weight
      ⟨F.add (F.mul_fin last_entry.2.start left_weight) (F.mul_fin entry.2.start right_weight),
       F.add (F.mul_fin last_entry.2.«end» left_weight) (F.mul_fin entry.2.«end» right_weight)⟩
    else fpf_go_float diameter entry rest

/-- `feed_per_flute` (src/main.rs lines 85-108) over the full binary64
diameter domain, including NaN and the infinities; the empty-table panic is
again embedded as `none`. -/
def feed_per_flute_float (material : Material) (diameter : F) : Option (Range F) :=
  match material.feed_table with
  | [] => none
  | first :: rest =>
    some (if F.geq first.1 diameter then ⟨.fin first.2.start, .fin first.2.«end»⟩
          else fpf_go_float diameter first rest)

/-- The exact rational value of `std::f64::consts::PI` (src/main.rs line 2),
namely 884279719003555 / 2^48. -/
def PI : ℚ := 884279719003555 / 281474976710656

/-- `GlobalState` (src/main.rs lines 121-131); `f64` fields modelled by ℚ,
`u8` by ℕ. -/
structure GlobalState where
  material : Material
  diameter : ℚ
  diameter_error : Bool
  flute_count : ℕ
  flute_count_error : Bool
  min_rpm : ℚ
  max_rpm : ℚ
  selected_rpm : ℚ
deriving DecidableEq

/-- `GlobalState::default` (src/main.rs lines 133-146). -/
def GlobalState.default : GlobalState :=
  { material := .WoodSoft
    diameter := 8
    diameter_error := false
    flute_count := 2
    flute_count_error := false
    min_rpm := 3000
    max_rpm := 24000
    selected_rpm := 13000 }

/-- `GlobalState::set_material` (src/main.rs lines 153-155). -/
def GlobalState.set_material (s : GlobalState) (material : Material) : GlobalState :=
  { s with material := material }

/-- `GlobalState::set_diameter` (src/main.rs lines 190-192). -/
def GlobalState.set_diameter (s : GlobalState) (diameter : ℚ) : GlobalState :=
  { s with diameter := diameter }

/-- `GlobalState::set_flute_count` (src/main.rs lines 193-195). -/
def GlobalState.set_flute_count (s : GlobalState) (flute_count : ℕ) : GlobalState :=
  { s with flute_count := flute_count }

/-- `GlobalState::set_selected_rpm` (src/main.rs lines 202-204). -/
def GlobalState.set_selected_rpm (s : GlobalState) (selected_rpm : ℚ) : GlobalState :=
  { s with selected_rpm := selected_rpm }

/-- `GlobalState::set_diameter_error` (src/main.rs lines 208-210). -/
def GlobalState.set_diameter_error (s : GlobalState) (diameter_error : Bool) : GlobalState :=
  { s with diameter_error := diameter_error }

/-- `GlobalState::set_flute_count_error` (src/main.rs lines 216-218). -/
def GlobalState.set_flute_count_error (s : GlobalState) (flute_count_error : Bool) : GlobalState :=
  { s with flute_count_error := flute_count_error }

/-- `GlobalState::rpm_range` (src/main.rs lines 156-163). -/
def GlobalState.rpm_range (s : GlobalState) : Range ℚ :=
  ⟨s.material.cut_speed.start * 1000 / (s.diameter * PI),
   s.material.cut_speed.«end» * 1000 / (s.diameter * PI)⟩

/-- `GlobalState::cut_speed` (src/main.rs lines 165-167). -/
def GlobalState.cut_speed (s : GlobalState) : ℚ :=
  s.diameter * PI * s.selected_rpm / 1000

/-- `GlobalState::feed_range` (src/main.rs lines 169-173); `none` exactly
when the (never-occurring) empty-table panic of `feed_per_flute` fires. -/
def GlobalState.feed_range (s : GlobalState) : Option (Range ℚ) :=
  (feed_per_flute s.material s.diameter).map fun f =>
    ⟨s.selected_rpm * s.flute_count * f.start,
     s.selected_rpm * s.flute_count * f.«end»⟩

/-- The `on_change_material` callback (src/main.rs lines 225-234): replaces
the held state only when the selected material differs. -/
def on_change_material (s : GlobalState) (value : Material) : GlobalState :=
  if s.material ≠ value then s.set_material value else s

/-- The `on_change_rpm` callback (src/main.rs lines 236-245). -/
def on_change_rpm (s : GlobalState) (value : ℚ) : GlobalState :=
  if s.selected_rpm ≠ value then s.set_selected_rpm value else s

/-- The `on_change_diameter` callback (src/main.rs lines 246-265).  The raw
text is parsed by Rust's `str::parse::<f64>`, external to the core; the
embedding takes the parse result (`none` = `Err`, `some v` = `Ok(v)`). -/
def on_change_diameter (s : GlobalState) (parsed : Option ℚ) : GlobalState :=
  match parsed with
  | some value =>
    if s.diameter ≠ value ∨ s.diameter_error = true then
      (s.set_diameter value).set_diameter_error false
    else s
  | none =>
    if ¬ s.diameter_error = true then s.set_diameter_error true else s

/-- The `on_change_flute_count` callback (src/main.rs lines 266-285), with
the `str::parse::<u8>` result passed in like for `on_change_diameter`. -/
def on_change_flute_count (s : GlobalState) (parsed : Option ℕ) : GlobalState :=
  match parsed with
  | some value =>
    if s.flute_count ≠ value ∨ s.flute_count_error = true then
      (s.set_flute_count value).set_flute_count_error false
    else s
  | none =>
    if ¬ s.flute_count_error = true then s.set_flute_count_error true else s

/-- Diameters within each material's feed table are strictly increasing. -/
lemma feed_table_sorted (m : Material) :
    List.Pairwise (fun a b : ℚ × Range ℚ => a.1 < b.1) m.feed_table := by
  cases m <;> norm_num [Material.feed_table, List.pairwise_cons]

/-- In a diameter-sorted nonempty list the head's diameter is a lower bound
for the diameter of every indexed element. -/
lemma head_le_get (a : ℚ × Range ℚ) (l : List (ℚ × Range ℚ)) (i : ℕ) (x : ℚ × Range ℚ)
    (hp : List.Pairwise (fun a b : ℚ × Range ℚ => a.1 < b.1) (a :: l))
    (h : (a :: l).get? i = some x) : a.1 ≤ x.1 := by
  cases i with
  | zero =>
    rw [List.get?_cons_zero] at h
    injection h with h
    exact h ▸ le_rfl
  | succ j =>
    rw [List.get?_cons_succ] at h
    exact le_of_lt ((List.pairwise_cons.mp hp).1 x (List.get?_mem h))

/-- In a diameter-sorted nonempty list every element's diameter is bounded by
the last element's diameter. -/
lemma le_getLast_of_sorted :
    ∀ (l : List (ℚ × Range ℚ)) (h : l ≠ []),
    List.Pairwise (fun a b : ℚ × Range ℚ => a.1 < b.1) l →
    ∀ e ∈ l, e.1 ≤ (l.getLast h).1 := by
  intro l
  induction l with
  | nil => intro h; exact absurd rfl h
  | cons a t ih =>
    intro h hp e he
    cases t with
    | nil =>
      rcases List.mem_singleton.mp he with rfl
      simp
    | cons b t' =>
      rw [List.getLast_cons (List.cons_ne_nil _ _)]
      rcases List.mem_cons.mp he with rfl | he'
      · exact le_of_lt ((List.pairwise_cons.mp hp).1 _ (List.getLast_mem _))
      · exact ih (List.cons_ne_nil _ _) hp.of_cons e he'

/-- Running the scan loop past entries that are all strictly below the target
diameter, with entry `i+1` the first at or above it (strictly above here),
produces the interpolation of entries `i` and `i+1`.  Indices are into the
list `last_entry :: t`, i.e. the whole remaining table. -/
lemma fpf_go_between (d : ℚ) :
    ∀ (i : ℕ) (last_entry : ℚ × Range ℚ) (t : List (ℚ × Range ℚ))
      (prev curr : ℚ × Range ℚ),
    List.Pairwise (fun a b : ℚ × Range ℚ => a.1 < b.1) (last_entry :: t) →
    (last_entry :: t).get? i = some prev →
    (last_entry :: t).get? (i + 1) = some curr →
    prev.1 < d → d < curr.1 →
    fpf_go d last_entry t =
      ⟨prev.2.start * ((curr.1 - prev.1) / (d - prev.1)) +
         curr.2.start * (1 - (curr.1 - prev.1) / (d - prev.1)),
       prev.2.«end» * ((curr.1 - prev.1) / (d - prev.1)) +
         curr.2.«end» * (1 - (curr.1 - prev.1) / (d - prev.1))⟩ := by
  intro i
  induction i with
  | zero =>
    intro last_entry t prev curr hp h0 h1 hpd hdc
    rw [List.get?_cons_zero] at h0
    injection h0 with h0
    subst h0
    rw [List.get?_cons_succ] at h1
    cases t with
    | nil => simp at h1
    | cons a t' =>
      rw [List.get?_cons_zero] at h1
      injection h1 with h1
      subst h1
      simp only [fpf_go]
      rw [if_neg (ne_of_gt hdc), if_pos hdc]
  | succ j ih =>
    intro last_entry t prev curr hp h0 h1 hpd hdc
    rw [List.get?_cons_succ] at h0 h1
    cases t with
    | nil => simp at h0
    | cons a t' =>
      have hp' := hp.of_cons
      have had : a.1 < d := lt_of_le_of_lt (head_le_get a t' j prev hp' h0) hpd
      simp only [fpf_go]
      rw [if_neg (ne_of_lt had), if_neg (not_lt.mpr (le_of_lt had))]
      exact ih a t' prev curr hp' h0 h1 hpd hdc

/-- Running the scan loop when the target diameter exactly equals the
diameter of entry `i` of `t` (entries before it being smaller, by
sortedness) returns that entry's range. -/
lemma fpf_go_exact :
    ∀ (i : ℕ) (last_entry : ℚ × Range ℚ) (t : List (ℚ × Range ℚ))
      (entry : ℚ × Range ℚ),
    List.Pairwise (fun a b : ℚ × Range ℚ => a.1 < b.1) (last_entry :: t) →
    t.get? i = some entry →
    fpf_go entry.1 last_entry t = entry.2 := by
  intro i
  induction i with
  | zero =>
    intro last_entry t entry hp h
    cases t with
    | nil => simp at h
    | cons a t' =>
      rw [List.get?_cons_zero] at h
      injection h with h
      subst h
      simp [fpf_go]
  | succ j ih =>
    intro last_entry t entry hp h
    cases t with
    | nil => simp at h
    | cons a t' =>
      rw [List.get?_cons_succ] at h
      have hp' := hp.of_cons
      have ha : a.1 < entry.1 := (List.pairwise_cons.mp hp').1 entry (List.get?_mem h)
      simp only [fpf_go]
      rw [if_neg (ne_of_lt ha), if_neg (not_lt.mpr (le_of_lt ha))]
      exact ih a t' entry hp' h

/-- Running the scan loop when every remaining diameter is at most the target
diameter returns the last entry's range. -/
lemma fpf_go_last (d : ℚ) :
    ∀ (t : List (ℚ × Range ℚ)) (last_entry : ℚ × Range ℚ),
    List.Pairwise (fun a b : ℚ × Range ℚ => a.1 < b.1) (last_entry :: t) →
    (∀ e ∈ last_entry :: t, e.1 ≤ d) →
    fpf_go d last_entry t = ((last_entry :: t).getLast (List.cons_ne_nil _ _)).2 := by
  intro t
  induction t with
  | nil =>
    intro last_entry hp hle
    simp [fpf_go]
  | cons a t' ih =>
    intro last_entry hp hle
    rw [List.getLast_cons (List.cons_ne_nil _ _)]
    cases t' with
    | nil =>
      have had : a.1 ≤ d := hle a (by simp)
      simp only [fpf_go]
      by_cases he : a.1 = d
      · rw [if_pos he]
        simp
      · rw [if_neg he, if_neg (not_lt.mpr had)]
        simp [fpf_go]
    | cons b t'' =>
      have hab : a.1 < b.1 := (List.pairwise_cons.mp hp.of_cons).1 b (by simp)
      have hbd : b.1 ≤ d := hle b (by simp)
      have had : a.1 < d := lt_of_lt_of_le hab hbd
      simp only [fpf_go]
      rw [if_neg (ne_of_lt had), if_neg (not_lt.mpr (le_of_lt had))]
      exact ih a hp.of_cons fun e he => hle e (List.mem_cons_of_mem _ he)

/-- C1: for every material and every diameter `d` strictly between two
consecutive tabulated diameters (entries `i` and `i+1` of the feed table),
`feed_per_flute` returns the range whose bounds are
`prev.range * left_weight + curr.range * right_weight` component-wise, with
`left_weight = (d_curr - d_prev) / (d - d_prev)` and
`right_weight = 1 - left_weight` — exactly the documented (inverted)
weighting arithmetic of the source. -/
theorem feed_per_flute_interpolates (m : Material) (i : ℕ)
    (prev curr : ℚ × Range ℚ) (d : ℚ)
    (h1 : m.feed_table.get? i = some prev)
    (h2 : m.feed_table.get? (i + 1) = some curr)
    (h3 : prev.1 < d) (h4 : d < curr.1) :
    feed_per_flute m d = some
      ⟨prev.2.start * ((curr.1 - prev.1) / (d - prev.1)) +
         curr.2.start * (1 - (curr.1 - prev.1) / (d - prev.1)),
       prev.2.«end» * ((curr.1 - prev.1) / (d - prev.1)) +
         curr.2.«end» * (1 - (curr.1 - prev.1) / (d - prev.1))⟩ := by
  have hs := feed_table_sorted m
  rcases ht : m.feed_table with _ | ⟨first, rest⟩
  · rw [ht] at h1
    simp at h1
  · rw [ht] at h1 h2 hs
    have hfd : first.1 < d := lt_of_le_of_lt (head_le_get first rest i prev hs h1) h3
    simp only [feed_per_flute, ht]
    rw [if_neg (not_le.mpr hfd)]
    rw [fpf_go_between d i first rest prev curr hs h1 h2 h3 h4]

/-- Witness for C1: Aluminium at diameter 7mm, strictly between the entries
at 6mm and 8mm; the inverted weights are 2 and -1, giving (0.01, 0.02). -/
theorem feed_per_flute_interpolates_witness :
    feed_per_flute .Aluminium 7 = some ⟨0.01, 0.02⟩ := by
  have h := feed_per_flute_interpolates .Aluminium 1
    (6, ⟨0.015, 0.025⟩) (8, ⟨0.02, 0.03⟩) 7
    rfl rfl (by norm_num) (by norm_num)
  rw [h]
  norm_num [Range.mk.injEq]

/-- C5: a diameter exactly equal to a tabulated diameter (entry `i` of the
material's feed table) returns that entry's range unmodified. -/
theorem feed_per_flute_exact_hit (m : Material) (i : ℕ) (entry : ℚ × Range ℚ)
    (h : m.feed_table.get? i = some entry) :
    feed_per_flute m entry.1 = some entry.2 := by
  have hs := feed_table_sorted m
  rcases ht : m.feed_table with _ | ⟨first, rest⟩
  · rw [ht] at h
    simp at h
  · rw [ht] at h hs
    simp only [feed_per_flute, ht]
    cases i with
    | zero =>
      rw [List.get?_cons_zero] at h
      injection h with h
      subst h
      rw [if_pos le_rfl]
    | succ j =>
      rw [List.get?_cons_succ] at h
      have hf : first.1 < entry.1 :=
        (List.pairwise_cons.mp hs).1 entry (List.get?_mem h)
      rw [if_neg (not_le.mpr hf)]
      rw [fpf_go_exact j first rest entry hs h]

/-- Witness for C5: Aluminium at the tabulated diameter 6mm returns
(0.015, 0.025) unmodified. -/
theorem feed_per_flute_exact_hit_witness :
    feed_per_flute .Aluminium 6 = some ⟨0.015, 0.025⟩ :=
  feed_per_flute_exact_hit .Aluminium 1 (6, ⟨0.015, 0.025⟩) rfl

/-- C4: a diameter at or below the smallest tabulated diameter returns the
first entry's range exactly (no special case for `d ≤ 0`), and a diameter at
or above the largest tabulated diameter returns the last entry's range
exactly. -/
theorem feed_per_flute_clamps (m : Material) (d : ℚ) (first lastE : ℚ × Range ℚ) :
    (m.feed_table.head? = some first → d ≤ first.1 →
      feed_per_flute m d = some first.2) ∧
    (m.feed_table.getLast? = some lastE → lastE.1 ≤ d →
      feed_per_flute m d = some lastE.2) := by
  have hs := feed_table_sorted m
  rcases ht : m.feed_table with _ | ⟨a, rest⟩
  · constructor <;> intro h
    · simp at h
    · simp at h
  · rw [ht] at hs
    have hne : a :: rest ≠ [] := List.cons_ne_nil _ _
    constructor
    · intro hh hd
      rw [List.head?_cons] at hh
      injection hh with hh
      subst hh
      simp only [feed_per_flute, ht]
      rw [if_pos hd]
    · intro hl hd
      rw [List.getLast?_eq_getLast_of_ne_nil hne] at hl
      injection hl with hl
      subst hl
      simp only [feed_per_flute, ht]
      by_cases hfd : a.1 ≥ d
      · cases rest with
        | nil =>
          rw [if_pos hfd]
          simp
        | cons b t =>
          exfalso
          have hab : a.1 < b.1 := (List.pairwise_cons.mp hs).1 b (by simp)
          have hbl : b.1 ≤ ((a :: b :: t).getLast hne).1 :=
            le_getLast_of_sorted _ hne hs b (by simp)
          have : ((a :: b :: t).getLast hne).1 ≤ a.1 := le_trans hd hfd
          linarith
      · rw [if_neg hfd]
        rw [fpf_go_last d rest a hs
          (fun e he => le_trans (le_getLast_of_sorted _ hne hs e he) hd)]

/-- Witness for C4: Aluminium at 2mm (below the 4mm minimum) gives the first
entry's range, at 20mm (above the 12mm maximum) the last entry's range. -/
theorem feed_per_flute_clamps_witness :
    feed_per_flute .Aluminium 2 = some ⟨0.005, 0.015⟩ ∧
    feed_per_flute .Aluminium 20 = some ⟨0.03, 0.05⟩ :=
  ⟨(feed_per_flute_clamps .Aluminium 2 (4, ⟨0.005, 0.015⟩) (12, ⟨0.03, 0.05⟩)).1
      rfl (by norm_num),
   (feed_per_flute_clamps .Aluminium 20 (4, ⟨0.005, 0.015⟩) (12, ⟨0.03, 0.05⟩)).2
      rfl (by norm_num)⟩

/-- C7: every material's cutting-speed range has `0 < start < end`, and every
feed table is non-empty, has strictly increasing diameters, and every
feed-per-tooth range has `0 ≤ start ≤ end`. -/
theorem catalog_invariants (m : Material) :
    m.cut_speed.start < m.cut_speed.«end» ∧
    0 < m.cut_speed.start ∧ 0 < m.cut_speed.«end» ∧
    m.feed_table ≠ [] ∧
    List.Pairwise (fun a b : ℚ × Range ℚ => a.1 < b.1) m.feed_table ∧
    (∀ e ∈ m.feed_table, e.2.start ≤ e.2.«end» ∧ 0 ≤ e.2.start ∧ 0 ≤ e.2.«end») := by
  cases m <;>
    norm_num [Material.cut_speed, Material.feed_table, List.pairwise_cons] <;>
    exact List.cons_ne_nil _ _

/-- Witness for C7 (its last conjunct quantifies over table entries):
instantiated at Aluminium's first entry. -/
theorem catalog_invariants_witness :
    ((4 : ℚ), (⟨0.005, 0.015⟩ : Range ℚ)).2.start ≤ ((4 : ℚ), (⟨0.005, 0.015⟩ : Range ℚ)).2.«end» ∧
    0 ≤ ((4 : ℚ), (⟨0.005, 0.015⟩ : Range ℚ)).2.start ∧
    0 ≤ ((4 : ℚ), (⟨0.005, 0.015⟩ : Range ℚ)).2.«end» :=
  (catalog_invariants .Aluminium).2.2.2.2.2 (4, ⟨0.005, 0.015⟩) (by norm_num [Material.feed_table])

/-- C9: `feed_per_flute` is total — every material's feed table is non-empty,
so the `expect` panic (modelled as `none`) is unreachable, for every rational
diameter and likewise for every binary64 diameter including zero, negative
values, NaN and the infinities. -/
theorem feed_per_flute_total :
    (∀ m : Material, m.feed_table ≠ []) ∧
    (∀ (m : Material) (d : ℚ), (feed_per_flute m d).isSome = true) ∧
    (∀ (m : Material) (d : F), (feed_per_flute_float m d).isSome = true) := by
  refine ⟨fun m => ?_, fun m d => ?_, fun m d => ?_⟩
  · cases m <;> simp [Material.feed_table]
  · cases m <;> simp [feed_per_flute, Material.feed_table]
  · cases m <;> simp [feed_per_flute_float, Material.feed_table]

/-- C2: `rpm_range` is exactly the unclamped conversion
`speed * 1000 / (diameter * PI)` applied to both cutting-speed bounds; it
does not depend on `min_rpm`, `max_rpm` or `selected_rpm`; and for WoodSoft
at diameter 8mm it is approximately (11936, 23873). -/
theorem rpm_range_spec :
    (∀ s : GlobalState,
      s.rpm_range = ⟨s.material.cut_speed.start * 1000 / (s.diameter * PI),
                     s.material.cut_speed.«end» * 1000 / (s.diameter * PI)⟩) ∧
    (∀ (s : GlobalState) (a b c : ℚ),
      GlobalState.rpm_range
        { s with min_rpm := a, max_rpm := b, selected_rpm := c } = s.rpm_range) ∧
    (∀ s : GlobalState, s.material = .WoodSoft → s.diameter = 8 →
      |s.rpm_range.start - 11936| < 1 ∧ |s.rpm_range.«end» - 23873| < 1) := by
  refine ⟨fun s => rfl, fun s a b c => rfl, fun s hm hd => ?_⟩
  simp only [GlobalState.rpm_range, hm, hd, Material.cut_speed]
  constructor <;> rw [abs_sub_lt_iff] <;> constructor <;> norm_num [PI]

/-- Witness for C2: at the default state (WoodSoft, 8mm). -/
theorem rpm_range_spec_witness :
    |GlobalState.default.rpm_range.start - 11936| < 1 ∧
    |GlobalState.default.rpm_range.«end» - 23873| < 1 :=
  rpm_range_spec.2.2 GlobalState.default rfl rfl

/-- C6: `feed_range` multiplies both bounds of the interpolated
feed-per-tooth range by `selected_rpm * flute_count`. -/
theorem feed_range_spec (s : GlobalState) (f : Range ℚ)
    (h : feed_per_flute s.material s.diameter = some f) :
    s.feed_range = some ⟨s.selected_rpm * s.flute_count * f.start,
                         s.selected_rpm * s.flute_count * f.«end»⟩ := by
  rw [GlobalState.feed_range, h, Option.map_some']

/-- Witness for C6: the default state (WoodSoft, 8mm, 2 flutes, 13000 rpm)
hits the tabulated range (0.037, 0.07), giving 962..1820 mm/min. -/
theorem feed_range_spec_witness :
    GlobalState.default.feed_range = some ⟨962, 1820⟩ := by
  rw [feed_range_spec GlobalState.default ⟨0.037, 0.07⟩
    (by norm_num [GlobalState.default, feed_per_flute, fpf_go, Material.feed_table])]
  norm_num [GlobalState.default, Range.mk.injEq]

/-- C3: the diameter and flute-count text commits follow commit-on-parse-
success: a successful parse commits the value and clears the error flag; a
failed parse sets the error flag and leaves the numeric field unchanged. -/
theorem commit_on_parse :
    (∀ (s : GlobalState) (v : ℚ),
      (on_change_diameter s (some v)).diameter = v ∧
      (on_change_diameter s (some v)).diameter_error = false) ∧
    (∀ s : GlobalState,
      (on_change_diameter s none).diameter_error = true ∧
      (on_change_diameter s none).diameter = s.diameter) ∧
    (∀ (s : GlobalState) (v : ℕ),
      (on_change_flute_count s (some v)).flute_count = v ∧
      (on_change_flute_count s (some v)).flute_count_error = false) ∧
    (∀ s : GlobalState,
      (on_change_flute_count s none).flute_count_error = true ∧
      (on_change_flute_count s none).flute_count = s.flute_count) := by
  refine ⟨fun s v => ?_, fun s => ?_, fun s v => ?_, fun s => ?_⟩
  · simp only [on_change_diameter]
    split
    · exact ⟨rfl, rfl⟩
    · next h =>
      push_neg at h
      exact ⟨h.1, by simpa using h.2⟩
  · simp only [on_change_diameter]
    split
    · exact ⟨rfl, rfl⟩
    · next h => exact ⟨not_not.mp h, rfl⟩
  · simp only [on_change_flute_count]
    split
    · exact ⟨rfl, rfl⟩
    · next h =>
      push_neg at h
      exact ⟨h.1, by simpa using h.2⟩
  · simp only [on_change_flute_count]
    split
    · exact ⟨rfl, rfl⟩
    · next h => exact ⟨not_not.mp h, rfl⟩

/-- C8: no-op edits are suppressed — recommitting the current diameter or
flute count with a clear error flag, re-failing a parse with the flag
already set, reselecting the current material, or re-sending the current
rpm, all leave the state object unchanged. -/
theorem noop_suppression :
    (∀ (s : GlobalState) (v : ℚ), s.diameter = v → s.diameter_error = false →
      on_change_diameter s (some v) = s) ∧
    (∀ s : GlobalState, s.diameter_error = true →
      on_change_diameter s none = s) ∧
    (∀ (s : GlobalState) (v : ℕ), s.flute_count = v → s.flute_count_error = false →
      on_change_flute_count s (some v) = s) ∧
    (∀ s : GlobalState, s.flute_count_error = true →
      on_change_flute_count s none = s) ∧
    (∀ s : GlobalState, on_change_material s s.material = s) ∧
    (∀ s : GlobalState, on_change_rpm s s.selected_rpm = s) := by
  refine ⟨fun s v h1 h2 => ?_, fun s h => ?_, fun s v h1 h2 => ?_,
    fun s h => ?_, fun s => ?_, fun s => ?_⟩
  · simp [on_change_diameter, h1, h2]
  · simp [on_change_diameter, h]
  · simp [on_change_flute_count, h1, h2]
  · simp [on_change_flute_count, h]
  · simp [on_change_material]
  · simp [on_change_rpm]

/-- Witness for C8: concrete no-op commits at (variants of) the default
state. -/
theorem noop_suppression_witness :
    on_change_diameter GlobalState.default (some 8) = GlobalState.default ∧
    on_change_diameter { GlobalState.default with diameter_error := true } none =
      { GlobalState.default with diameter_error := true } ∧
    on_change_flute_count GlobalState.default (some 2) = GlobalState.default ∧
    on_change_flute_count { GlobalState.default with flute_count_error := true } none =
      { GlobalState.default with flute_count_error := true } ∧
    on_change_material GlobalState.default .WoodSoft = GlobalState.default ∧
    on_change_rpm GlobalState.default 13000 = GlobalState.default :=
  ⟨noop_suppression.1 _ 8 rfl rfl,
   noop_suppression.2.1 _ rfl,
   noop_suppression.2.2.1 _ 2 rfl rfl,
   noop_suppression.2.2.2.1 _ rfl,
   noop_suppression.2.2.2.2.1 GlobalState.default,
   noop_suppression.2.2.2.2.2 GlobalState.default⟩

/-- C10: `set_material` replaces only the material field — every other field,
`selected_rpm` in particular, is untouched (unclamped policy) — and switching
material away and back through the material callback restores the state and
hence `rpm_range`. -/
theorem set_material_frame :
    (∀ (s : GlobalState) (m : Material),
      (s.set_material m).material = m ∧
      (s.set_material m).diameter = s.diameter ∧
      (s.set_material m).diameter_error = s.diameter_error ∧
      (s.set_material m).flute_count = s.flute_count ∧
      (s.set_material m).flute_count_error = s.flute_count_error ∧
      (s.set_material m).min_rpm = s.min_rpm ∧
      (s.set_material m).max_rpm = s.max_rpm ∧
      (s.set_material m).selected_rpm = s.selected_rpm) ∧
    (∀ (s : GlobalState) (m : Material),
      on_change_material (on_change_material s m) s.material = s) ∧
    (∀ (s : GlobalState) (m : Material),
      (on_change_material (on_change_material s m) s.material).rpm_range = s.rpm_range) := by
  have key : ∀ (s : GlobalState) (m : Material),
      on_change_material (on_change_material s m) s.material = s := by
    intro s m
    by_cases h : s.material = m
    · subst h
      simp [on_change_material]
    · have h1 : on_change_material s m = s.set_material m := by
        rw [on_change_material, if_pos h]
      rw [h1, on_change_material, if_pos (fun he => h he.symm)]
      rfl
  exact ⟨fun s m => ⟨rfl, rfl, rfl, rfl, rfl, rfl, rfl, rfl⟩,
    key, fun s m => by rw [key s m]⟩
